import Mathlib

/-!
# ArcGIS MapServer compatibility handlers of mbtileserver (`arcgis.go`)

A shallow embedding of the three handlers `GetArcGISService`,
`GetArcGISServiceLayers` and `GetArcGISServiceLegend`, together with the Go
semantics they rely on:

* IEEE-754 binary floating point (`float32`, `float64`) with round-to-nearest,
  ties-to-even, over exact rationals;
* the two's-complement wrap-around of Go's 64-bit `int`;
* dynamically typed `interface{}` values, type assertions and slice indexing
  that panic;
* the `for i := minZoom; i <= maxZoom; i++` loop, run with explicit fuel.
-/

namespace ArcGIS

/-! ## IEEE-754 binary floating point -/

/-- A binary floating-point format: `prec` significand bits (hidden bit
included) and largest exponent `emax`. -/
structure FloatFormat where
  prec : ℕ
  emax : ℤ

/-- Go's `float32`. -/
def binary32 : FloatFormat := ⟨24, 127⟩

/-- Go's `float64`. -/
def binary64 : FloatFormat := ⟨53, 1023⟩

/-- Exponent of the least significant bit of a subnormal number
(`-149` for `float32`, `-1074` for `float64`). -/
def FloatFormat.qmin (fmt : FloatFormat) : ℤ := 2 - fmt.emax - fmt.prec

/-- A floating-point datum: a NaN, a signed infinity, the negative zero, or a
finite number given by its exact rational value (`fin 0` is the positive zero). -/
inductive FP where
  | nan
  | inf (neg : Bool)
  | negZero
  | fin (q : ℚ)
  deriving DecidableEq

/-- Round a non-negative rational to the nearest integer, ties to even. -/
def roundNearestEven (s : ℚ) : ℤ :=
  let f := ⌊s⌋
  let r := s - f
  if r < 1 / 2 then f
  else if 1 / 2 < r then f + 1
  else if f % 2 = 0 then f
  else f + 1

/-- The datum of sign `neg` and magnitude `v`, for a magnitude already rounded
to the format: an infinity when `v` reaches `2 ^ (emax + 1)`, a signed zero
when `v = 0`, the finite number otherwise. -/
def packPos (fmt : FloatFormat) (neg : Bool) (v : ℚ) : FP :=
  if 2 ^ (fmt.emax + 1) ≤ v then FP.inf neg
  else if v = 0 then (if neg then FP.negZero else FP.fin 0)
  else FP.fin (if neg then -v else v)

/-- Round the positive rational `q` to format `fmt` (round to nearest, ties to
even) and attach the sign `neg`: the significand is rounded at the
exponent of `q`, or at `qmin` in the subnormal range. -/
def roundPos (fmt : FloatFormat) (neg : Bool) (q : ℚ) : FP :=
  let qe := max (Int.log 2 q - fmt.prec + 1) fmt.qmin
  packPos fmt neg ((roundNearestEven (q / 2 ^ qe) : ℚ) * 2 ^ qe)

/-- Round an exact rational to format `fmt`. This is the conversion of a Go
numeric constant to a floating-point type, and the rounding step of every
arithmetic operation. -/
def roundQ (fmt : FloatFormat) (q : ℚ) : FP :=
  if q = 0 then FP.fin 0
  else if 0 < q then roundPos fmt false q
  else roundPos fmt true (-q)

/-- Sign bit of a datum. -/
def FP.signBit : FP → Bool
  | FP.nan => false
  | FP.inf neg => neg
  | FP.negZero => true
  | FP.fin q => decide (q < 0)

/-- Rational value of a finite datum (`0` for the others). -/
def FP.val : FP → ℚ
  | FP.fin q => q
  | _ => 0

/-- Whether a datum is a zero of either sign. -/
def FP.isZero : FP → Bool
  | FP.negZero => true
  | FP.fin q => decide (q = 0)
  | _ => false

/-- Whether a datum is an infinity. -/
def FP.isInf : FP → Bool
  | FP.inf _ => true
  | _ => false

/-- Whether a datum is a NaN. -/
def FP.isNaN : FP → Bool
  | FP.nan => true
  | _ => false

/-- Whether a datum is a finite number, neither a NaN nor an infinity: the
floating-point values that Go's `encoding/json` encodes. -/
def FP.isFinite : FP → Bool
  | FP.nan => false
  | FP.inf _ => false
  | _ => true

/-- A zero with the given sign. -/
def FP.zero (neg : Bool) : FP := if neg then FP.negZero else FP.fin 0

/-- IEEE multiplication `x * y` in format `fmt`. -/
def fmul (fmt : FloatFormat) (x y : FP) : FP :=
  let s := xor x.signBit y.signBit
  if x.isNaN || y.isNaN then FP.nan
  else if (x.isInf && y.isZero) || (x.isZero && y.isInf) then FP.nan
  else if x.isInf || y.isInf then FP.inf s
  else if x.isZero || y.isZero then FP.zero s
  else roundQ fmt (x.val * y.val)

/-- IEEE division `x / y` in format `fmt`; a finite non-zero number divided by
a zero is an infinity (Go does not panic on floating-point division by zero). -/
def fdiv (fmt : FloatFormat) (x y : FP) : FP :=
  let s := xor x.signBit y.signBit
  if x.isNaN || y.isNaN then FP.nan
  else if (x.isInf && y.isInf) || (x.isZero && y.isZero) then FP.nan
  else if x.isInf then FP.inf s
  else if y.isInf then FP.zero s
  else if y.isZero then FP.inf s
  else if x.isZero then FP.zero s
  else roundQ fmt (x.val / y.val)

/-- Go's `x < y` on floating-point operands (false when either is a NaN). -/
def flt (x y : FP) : Bool :=
  match x, y with
  | FP.nan, _ => false
  | _, FP.nan => false
  | FP.inf a, FP.inf b => a && !b
  | FP.inf a, _ => a
  | _, FP.inf b => !b
  | a, b => decide (a.val < b.val)

/-- Go's conversion `float64(i)` of an integer. -/
def float64OfInt (i : ℤ) : FP := roundQ binary64 (i : ℚ)

/-- Go's `math.Pow(2, y)`. The special cases follow the package documentation
(`Pow(x, ±0) = 1`, `Pow(x, NaN) = NaN`, `Pow(x, +Inf) = +Inf` and
`Pow(x, -Inf) = +0` for `|x| > 1`); for an integral `y` the result is `2 ^ y`
rounded to `float64`, which overflows to `+Inf` from `y = 1024` on and
underflows to `+0` below `y = -1075`. The handler only passes integral
exponents (`float64(i)`), which is the case this model covers: a finite `y` is
read through its integer part. -/
def math_Pow2 (y : FP) : FP :=
  match y with
  | FP.nan => FP.nan
  | FP.inf neg => if neg then FP.fin 0 else FP.inf false
  | FP.negZero => FP.fin 1
  | FP.fin q =>
    if 1024 ≤ ⌊q⌋ then FP.inf false
    else if ⌊q⌋ < -1075 then FP.fin 0
    else roundQ binary64 ((2 : ℚ) ^ ⌊q⌋)

/-! ## Go integers, strings and dynamic values -/

/-- Largest value of Go's 64-bit `int`. -/
def maxInt : ℤ := 2 ^ 63 - 1

/-- Smallest value of Go's 64-bit `int`. -/
def minInt : ℤ := -2 ^ 63

/-- Two's-complement wrap-around of an integer result into the 64-bit `int`
range: Go's signed arithmetic wraps on overflow. -/
def wrapInt (x : ℤ) : ℤ := (x + 2 ^ 63) % 2 ^ 64 - 2 ^ 63

/-- Go's `unicode.ToUpper`: an ASCII rune is upper-cased directly; any other
rune is looked up in the Unicode case tables, which are the parameter
`caseTable`. -/
def unicode_ToUpper (caseTable : Char → Char) (r : Char) : Char :=
  if r.val < 128 then r.toUpper else caseTable r

/-- Go's `strings.ToUpper` on a valid UTF-8 string: every rune is mapped by
`unicode.ToUpper`. -/
def strings_ToUpper (caseTable : Char → Char) (s : String) : String :=
  String.mk (s.data.map (unicode_ToUpper caseTable))

/-- The dynamic values (`interface{}`) a metadata mapping may hold. -/
inductive GoValue where
  | nil
  | str (s : String)
  | int (i : ℤ)
  | bool (b : Bool)
  | float64 (x : FP)
  | float32s (xs : List FP)
  | float64s (xs : List FP)
  deriving DecidableEq

/-- A tileset of the registry: only `format` and `metadata` are read by the
handlers. A Go map lookup of an absent key yields the nil interface value, so
the metadata map is a total function into `GoValue`. -/
structure Tileset where
  format : String
  metadata : String → GoValue

/-- The ways a handler can abort abnormally. -/
inductive Panic where
  | typeAssertion (key : String)
  | indexOutOfRange (index : ℕ) (length : ℕ)
  deriving DecidableEq

/-- The error a handler returns when the service identifier does not
resolve. -/
structure HTTPError where
  code : ℕ
  message : String
  deriving DecidableEq

/-- What a request handler does: return the error of `getServiceOr404`, abort
with a panic, or respond through `c.JSON(status, doc)`. -/
inductive Outcome (α : Type) where
  | err (e : HTTPError)
  | panic (p : Panic)
  | json (status : ℕ) (doc : α)
  deriving DecidableEq

/-- Modelled from the spec: `toString` is defined elsewhere in the repository.
The spec (4.3, 7) gives its policy: the string held by the value, and the empty
string when the value is absent or not a string. -/
def toString (v : GoValue) : String :=
  match v with
  | GoValue.str s => s
  | _ => ""

/-- The unchecked type assertion `metadata[key].(int)`. -/
def assertInt (key : String) (v : GoValue) : Except Panic ℤ :=
  match v with
  | GoValue.int i => Except.ok i
  | _ => Except.error (Panic.typeAssertion key)

/-- The unchecked type assertion `metadata[key].([]float32)`. -/
def assertFloat32s (key : String) (v : GoValue) : Except Panic (List FP) :=
  match v with
  | GoValue.float32s xs => Except.ok xs
  | _ => Except.error (Panic.typeAssertion key)

/-- The slice index expression `xs[i]`, which panics out of range. -/
def index (xs : List FP) (i : ℕ) : Except Panic FP :=
  match xs.get? i with
  | some x => Except.ok x
  | none => Except.error (Panic.indexOutOfRange i xs.length)

/-! ## Output structures -/

structure ArcGISLOD where
  Level : ℤ
  Resolution : FP
  Scale : FP
  deriving DecidableEq

structure ArcGISSpatialReference where
  Wkid : ℕ
  deriving DecidableEq

structure ArcGISExtent where
  Xmin : FP
  Ymin : FP
  Xmax : FP
  Ymax : FP
  SpatialReference : ArcGISSpatialReference
  deriving DecidableEq

/-- A nil slice is the empty list. -/
structure ArcGISLayerStub where
  Id : ℕ
  Name : String
  ParentLayerId : ℤ
  DefaultVisibility : Bool
  SubLayerIds : List ℕ
  MinScale : FP
  MaxScale : FP
  deriving DecidableEq

structure ArcGISLayer where
  Id : ℕ
  Name : String
  Type_ : String
  Description : String
  GeometryType : String
  CopyrightText : String
  ParentLayer : GoValue
  SubLayers : List ArcGISLayerStub
  MinScale : FP
  MaxScale : FP
  DefaultVisibility : Bool
  Extent : ArcGISExtent
  HasAttachments : Bool
  HtmlPopupType : String
  DrawingInfo : GoValue
  DisplayField : String
  Fields : List GoValue
  TypeIdField : String
  Types : String
  Relationships : List GoValue
  Capabilities : String
  deriving DecidableEq

def WebMercatorSR : ArcGISSpatialReference := { Wkid := 3857 }

/-- The map literal `map[string]float32{"x": ..., "y": ...}`. -/
structure Origin where
  x : FP
  y : FP
  deriving DecidableEq

/-- The map literal `tileInfo`. -/
structure TileInfo where
  rows : ℤ
  cols : ℤ
  dpi : ℤ
  origin : Origin
  spatialReference : ArcGISSpatialReference
  lods : List ArcGISLOD
  deriving DecidableEq

/-- The map literal `documentInfo`. -/
structure DocumentInfo where
  Title : String
  Author : String
  Comments : String
  Subject : String
  Category : String
  Keywords : String
  Credits : String
  deriving DecidableEq

/-- The map literal `out` of `GetArcGISService`. -/
structure ServiceDoc where
  currentVersion : String
  id : String
  name : String
  mapName : String
  capabilities : String
  description : String
  serviceDescription : String
  copyrightText : String
  singleFusedMapCache : Bool
  supportedImageFormatTypes : String
  units : String
  layers : List ArcGISLayerStub
  tables : List String
  spatialReference : ArcGISSpatialReference
  tileInfo : TileInfo
  documentInfo : DocumentInfo
  initialExtent : ArcGISExtent
  fullExtent : ArcGISExtent
  exportTilesAllowed : Bool
  maxExportTilesCount : ℤ
  resampling : Bool
  deriving DecidableEq

/-- The map literal `out` of `GetArcGISServiceLayers`. -/
structure LayersDoc where
  layers : List ArcGISLayer
  deriving DecidableEq

/-- The map literal `layers[0]` of `GetArcGISServiceLegend`. -/
structure LegendLayer where
  layerId : ℤ
  layerName : String
  layerType : String
  minScale : ℤ
  maxScale : ℤ
  legend : List GoValue
  deriving DecidableEq

/-- The map literal `out` of `GetArcGISServiceLegend`. -/
structure LegendDoc where
  layers : List LegendLayer
  deriving DecidableEq

/-! ## The handlers -/

/-- The local `scaleFactor := 156543.033928`, a `float64`. -/
def scaleFactor : FP := roundQ binary64 (156543033928 / 1000000)

/-- The local `dpi := 96`, an `int`. -/
def dpi : ℤ := 96

/-- The body of the zoom loop for level `i`: the entry appended to `lods`,
with `resolution := scaleFactor / math.Pow(2, float64(i))` and
`Scale: float64(dpi) * 39.37 * resolution`. -/
def lodEntry (i : ℤ) : ArcGISLOD :=
  let resolution := fdiv binary64 scaleFactor (math_Pow2 (float64OfInt i))
  { Level := i
    Resolution := resolution
    Scale := fmul binary64 (fmul binary64 (float64OfInt dpi) (roundQ binary64 (3937 / 100)))
      resolution }

/-- The loop `for i := minZoom; i <= maxZoom; i++ { lods = append(lods, ...) }`
started at `i` with the entries `lods` collected so far; `i++` wraps around.
Each iteration uses one unit of fuel and `none` means the fuel ran out. -/
def lodsLoop (maxZoom : ℤ) : ℕ → ℤ → List ArcGISLOD → Option (List ArcGISLOD)
  | 0, _, _ => none
  | fuel + 1, i, lods =>
    if i ≤ maxZoom then lodsLoop maxZoom fuel (wrapInt (i + 1)) (lods ++ [lodEntry i])
    else some lods

/-- The statements `bounds := metadata["bounds"].([]float32)` and
`extent := ArcGISExtent{...}` shared by `GetArcGISService` (lines 92-99) and
`GetArcGISServiceLayers` (lines 169-176). -/
def boundsExtent (metadata : String → GoValue) : Except Panic ArcGISExtent :=
  match assertFloat32s "bounds" (metadata "bounds") with
  | Except.error p => Except.error p
  | Except.ok bounds =>
    match index bounds 0 with
    | Except.error p => Except.error p
    | Except.ok b0 =>
      match index bounds 1 with
      | Except.error p => Except.error p
      | Except.ok b1 =>
        match index bounds 2 with
        | Except.error p => Except.error p
        | Except.ok b2 =>
          match index bounds 3 with
          | Except.error p => Except.error p
          | Except.ok b3 =>
            Except.ok
              { Xmin := b0, Ymin := b1, Xmax := b2, Ymax := b3
                SpatialReference := WebMercatorSR }

/-- The literals `tileInfo`, `documentInfo` and `out` of `GetArcGISService`
(lines 101-155), built from the values computed before them. The constants
of `"origin"` are converted to `float32`, the element type of that map. -/
def serviceDocument (caseTable : Char → Char) (id : String) (tileset : Tileset)
    (lods : List ArcGISLOD) (extent : ArcGISExtent) : ServiceDoc :=
  let imgFormat := tileset.format
  let metadata := tileset.metadata
  let name := toString (metadata "name")
  let description := toString (metadata "description")
  let attribution := toString (metadata "attribution")
  let tileInfo : TileInfo :=
    { rows := 256
      cols := 256
      dpi := dpi
      origin :=
        { x := roundQ binary32 (-20037508342787 / 1000000)
          y := roundQ binary32 (20037508342787 / 1000000) }
      spatialReference := WebMercatorSR
      lods := lods }
  let documentInfo : DocumentInfo :=
    { Title := name
      Author := attribution
      Comments := ""
      Subject := ""
      Category := ""
      Keywords := toString (metadata "tags")
      Credits := toString (metadata "credits") }
  { currentVersion := "10.4"
    id := id
    name := name
    mapName := name
    capabilities := "Map,TilesOnly"
    description := description
    serviceDescription := description
    copyrightText := attribution
    singleFusedMapCache := true
    supportedImageFormatTypes := strings_ToUpper caseTable imgFormat
    units := "esriMeters"
    layers :=
      [{ Id := 0
         Name := name
         ParentLayerId := -1
         DefaultVisibility := true
         SubLayerIds := []
         MinScale := roundQ binary32 0
         MaxScale := roundQ binary32 0 }]
    tables := []
    spatialReference := WebMercatorSR
    tileInfo := tileInfo
    documentInfo := documentInfo
    initialExtent := extent
    fullExtent := extent
    exportTilesAllowed := false
    maxExportTilesCount := 0
    resampling := false }

/-- The handler `GetArcGISService`. `resolved` is the result of
`getServiceOr404(c)`, `tilesets` the registry and `caseTable` the Unicode
table behind `strings.ToUpper`; the result is `none` when the zoom loop does
not finish within `fuel` iterations. The statements run in source order: the
two zoom assertions, the loop, the bounds, then the document literals and
`c.JSON(http.StatusOK, out)`. -/
def GetArcGISService (caseTable : Char → Char) (fuel : ℕ)
    (resolved : Except HTTPError String) (tilesets : String → Tileset) :
    Option (Outcome ServiceDoc) :=
  match resolved with
  | Except.error e => some (Outcome.err e)
  | Except.ok id =>
    let tileset := tilesets id
    let metadata := tileset.metadata
    match assertInt "minzoom" (metadata "minzoom") with
    | Except.error p => some (Outcome.panic p)
    | Except.ok minZoom =>
      match assertInt "maxzoom" (metadata "maxzoom") with
      | Except.error p => some (Outcome.panic p)
      | Except.ok maxZoom =>
        match lodsLoop maxZoom fuel minZoom [] with
        | none => none
        | some lods =>
          match boundsExtent metadata with
          | Except.error p => some (Outcome.panic p)
          | Except.ok extent =>
            some (Outcome.json 200 (serviceDocument caseTable id tileset lods extent))

/-- The composite literal assigned to `layers[0]` in `GetArcGISServiceLayers`
(lines 181-189); the fields it leaves out have their zero values. -/
def rootLayer (metadata : String → GoValue) (extent : ArcGISExtent) : ArcGISLayer :=
  { Id := 0
    Name := toString (metadata "name")
    Type_ := ""
    Description := toString (metadata "description")
    GeometryType := ""
    CopyrightText := toString (metadata "attribution")
    ParentLayer := GoValue.nil
    SubLayers := []
    MinScale := FP.fin 0
    MaxScale := FP.fin 0
    DefaultVisibility := false
    Extent := extent
    HasAttachments := false
    HtmlPopupType := "esriServerHTMLPopupTypeAsHTMLText"
    DrawingInfo := GoValue.nil
    DisplayField := ""
    Fields := []
    TypeIdField := ""
    Types := ""
    Relationships := []
    Capabilities := "" }

/-- The handler `GetArcGISServiceLayers`: `layers` is a one-element array. -/
def GetArcGISServiceLayers (resolved : Except HTTPError String)
    (tilesets : String → Tileset) : Outcome LayersDoc :=
  match resolved with
  | Except.error e => Outcome.err e
  | Except.ok id =>
    let tileset := tilesets id
    let metadata := tileset.metadata
    match boundsExtent metadata with
    | Except.error p => Outcome.panic p
    | Except.ok extent => Outcome.json 200 { layers := [rootLayer metadata extent] }

/-- The map literal assigned to `layers[0]` in `GetArcGISServiceLegend`
(lines 211-218); `elements` is an empty array. -/
def legendLayer (metadata : String → GoValue) : LegendLayer :=
  { layerId := 0
    layerName := toString (metadata "name")
    layerType := ""
    minScale := 0
    maxScale := 0
    legend := [] }

/-- The handler `GetArcGISServiceLegend`: `layers` is a one-element array. -/
def GetArcGISServiceLegend (resolved : Except HTTPError String)
    (tilesets : String → Tileset) : Outcome LegendDoc :=
  match resolved with
  | Except.error e => Outcome.err e
  | Except.ok id =>
    let tileset := tilesets id
    let metadata := tileset.metadata
    Outcome.json 200 { layers := [legendLayer metadata] }

/-! ## Closed forms used to state the results -/

/-- The entries for the levels `minZoom, minZoom + 1, ..., maxZoom`, in that
order (empty when `minZoom > maxZoom`). -/
def lodList (minZoom maxZoom : ℤ) : List ArcGISLOD :=
  (List.range (maxZoom + 1 - minZoom).toNat).map (fun (k : ℕ) => lodEntry (minZoom + (k : ℤ)))

/-- The rational value of `scaleFactor`: the `float64` nearest to
`156543.033928`. -/
def scaleFactorQ : ℚ := 5378777689099027 / 2 ^ 35

/-- A tileset with the given format and zoom range, bounds and name. -/
def sampleTileset (format : String) (minZoom maxZoom : GoValue) (bounds : GoValue)
    (name : GoValue) : Tileset :=
  { format := format
    metadata := fun key =>
      if key = "minzoom" then minZoom
      else if key = "maxzoom" then maxZoom
      else if key = "bounds" then bounds
      else if key = "name" then name
      else GoValue.nil }

/-! ## Rounding lemmas -/

theorem roundNearestEven_intCast (n : ℤ) : roundNearestEven (n : ℚ) = n := by
  simp [roundNearestEven]

theorem roundNearestEven_eq {s : ℚ} {n : ℤ} (h1 : (n : ℚ) - 1 / 2 < s) (h2 : s < n + 1 / 2) :
    roundNearestEven s = n := by
  unfold roundNearestEven
  by_cases hs : (n : ℚ) ≤ s
  · have hf : ⌊s⌋ = n := by
      rw [Int.floor_eq_iff]
      constructor
      · exact hs
      · linarith
    simp only [hf]
    rw [if_pos (by linarith)]
  · have hs' : s < n := lt_of_not_le hs
    have hf : ⌊s⌋ = n - 1 := by
      rw [Int.floor_eq_iff]
      push_cast
      constructor <;> linarith
    simp only [hf]
    push_cast
    rw [if_neg (by linarith), if_pos (by linarith)]
    ring

theorem intLog_eq {q : ℚ} {E : ℤ} (h1 : (2 : ℚ) ^ E ≤ q) (h2 : q < 2 ^ (E + 1)) :
    Int.log 2 q = E := by
  have hq : 0 < q := lt_of_lt_of_le (by positivity) h1
  have a : E ≤ Int.log 2 q := (Int.zpow_le_iff_le_log (by norm_num) hq).1 (by exact_mod_cast h1)
  have b : Int.log 2 q < E + 1 := (Int.lt_zpow_iff_log_lt (by norm_num) hq).1 (by exact_mod_cast h2)
  omega

theorem roundPos_eval (fmt : FloatFormat) (neg : Bool) {q : ℚ} (E qe n : ℤ)
    (hE1 : (2 : ℚ) ^ E ≤ q) (hE2 : q < 2 ^ (E + 1))
    (hqe : qe = max (E - fmt.prec + 1) fmt.qmin)
    (h1 : ((n : ℚ) - 1 / 2) * 2 ^ qe < q) (h2 : q < ((n : ℚ) + 1 / 2) * 2 ^ qe) :
    roundPos fmt neg q = packPos fmt neg ((n : ℚ) * 2 ^ qe) := by
  have hp : (0 : ℚ) < 2 ^ qe := by positivity
  have hn : roundNearestEven (q / 2 ^ qe) = n := by
    apply roundNearestEven_eq
    · rw [lt_div_iff₀ hp]; exact h1
    · rw [div_lt_iff₀ hp]; exact h2
  unfold roundPos
  simp only [intLog_eq hE1 hE2, ← hqe, hn]

theorem roundPos_exact (fmt : FloatFormat) (neg : Bool) (m : ℕ) (e : ℤ)
    (hm : 0 < m) (hm' : m < 2 ^ fmt.prec) (he : fmt.qmin ≤ e)
    (hlt : (m : ℚ) * 2 ^ e < 2 ^ (fmt.emax + 1)) :
    roundPos fmt neg ((m : ℚ) * 2 ^ e) =
      FP.fin (if neg then -((m : ℚ) * 2 ^ e) else (m : ℚ) * 2 ^ e) := by
  have hq : (0 : ℚ) < (m : ℚ) * 2 ^ e := by positivity
  have hlog : Int.log 2 ((m : ℚ) * 2 ^ e) < fmt.prec + e := by
    rw [← Int.lt_zpow_iff_log_lt (by norm_num) hq]
    push_cast
    rw [zpow_add₀ (by norm_num : (2 : ℚ) ≠ 0), zpow_natCast]
    have : (m : ℚ) < 2 ^ fmt.prec := by exact_mod_cast hm'
    exact mul_lt_mul_of_pos_right this (by positivity)
  set qe := max (Int.log 2 ((m : ℚ) * 2 ^ e) - fmt.prec + 1) fmt.qmin with hqe
  have hle : qe ≤ e := by
    rw [hqe]; exact max_le (by omega) he
  obtain ⟨k, hk⟩ := Int.eq_ofNat_of_zero_le (sub_nonneg.2 hle)
  have hdiv : (m : ℚ) * 2 ^ e / 2 ^ qe = ((m * 2 ^ k : ℕ) : ℤ) := by
    have he' : e = qe + k := by omega
    rw [he', zpow_add₀ (by norm_num : (2 : ℚ) ≠ 0), zpow_natCast]
    push_cast
    field_simp
    ring
  have hv : ((roundNearestEven ((m : ℚ) * 2 ^ e / 2 ^ qe) : ℤ) : ℚ) * 2 ^ qe = (m : ℚ) * 2 ^ e := by
    rw [hdiv, roundNearestEven_intCast, ← hdiv]
    field_simp
  unfold roundPos
  simp only [← hqe, hv]
  unfold packPos
  rw [if_neg (not_le.2 hlt), if_neg (ne_of_gt hq)]


theorem roundQ_exact (fmt : FloatFormat) (m : ℕ) (e : ℤ)
    (hm : 0 < m) (hm' : m < 2 ^ fmt.prec) (he : fmt.qmin ≤ e)
    (hlt : (m : ℚ) * 2 ^ e < 2 ^ (fmt.emax + 1)) :
    roundQ fmt ((m : ℚ) * 2 ^ e) = FP.fin ((m : ℚ) * 2 ^ e) := by
  have hq : (0 : ℚ) < (m : ℚ) * 2 ^ e := by positivity
  unfold roundQ
  rw [if_neg (ne_of_gt hq), if_pos hq, roundPos_exact fmt false m e hm hm' he hlt]
  simp

theorem roundQ_neg_exact (fmt : FloatFormat) (m : ℕ) (e : ℤ)
    (hm : 0 < m) (hm' : m < 2 ^ fmt.prec) (he : fmt.qmin ≤ e)
    (hlt : (m : ℚ) * 2 ^ e < 2 ^ (fmt.emax + 1)) :
    roundQ fmt (-((m : ℚ) * 2 ^ e)) = FP.fin (-((m : ℚ) * 2 ^ e)) := by
  have hq : (0 : ℚ) < (m : ℚ) * 2 ^ e := by positivity
  unfold roundQ
  rw [if_neg (by linarith), if_neg (by linarith), neg_neg,
    roundPos_exact fmt true m e hm hm' he hlt]
  simp

theorem roundQ_eval_pos (fmt : FloatFormat) {q : ℚ} (E qe n : ℤ)
    (hE1 : (2 : ℚ) ^ E ≤ q) (hE2 : q < 2 ^ (E + 1))
    (hqe : qe = max (E - fmt.prec + 1) fmt.qmin)
    (h1 : ((n : ℚ) - 1 / 2) * 2 ^ qe < q) (h2 : q < ((n : ℚ) + 1 / 2) * 2 ^ qe) :
    roundQ fmt q = packPos fmt false ((n : ℚ) * 2 ^ qe) := by
  have hq : 0 < q := lt_of_lt_of_le (by positivity) hE1
  unfold roundQ
  rw [if_neg (ne_of_gt hq), if_pos hq, roundPos_eval fmt false E qe n hE1 hE2 hqe h1 h2]

theorem roundQ_eval_neg (fmt : FloatFormat) {q : ℚ} (E qe n : ℤ)
    (hE1 : (2 : ℚ) ^ E ≤ q) (hE2 : q < 2 ^ (E + 1))
    (hqe : qe = max (E - fmt.prec + 1) fmt.qmin)
    (h1 : ((n : ℚ) - 1 / 2) * 2 ^ qe < q) (h2 : q < ((n : ℚ) + 1 / 2) * 2 ^ qe) :
    roundQ fmt (-q) = packPos fmt true ((n : ℚ) * 2 ^ qe) := by
  have hq : 0 < q := lt_of_lt_of_le (by positivity) hE1
  unfold roundQ
  rw [if_neg (by linarith), if_neg (by linarith), neg_neg,
    roundPos_eval fmt true E qe n hE1 hE2 hqe h1 h2]

theorem scaleFactor_eq : scaleFactor = FP.fin scaleFactorQ := by
  unfold scaleFactor scaleFactorQ
  rw [roundQ_eval_pos binary64 17 (-35) 5378777689099027 (by norm_num) (by norm_num)
    (by norm_num [binary64, FloatFormat.qmin]) (by norm_num) (by norm_num)]
  norm_num [packPos, binary64]

theorem float64OfInt_exact (i : ℤ) (h1 : -2 ^ 53 < i) (h2 : i < 2 ^ 53) :
    float64OfInt i = FP.fin (i : ℚ) := by
  unfold float64OfInt
  rcases lt_trichotomy i 0 with h | h | h
  · obtain ⟨m, hm⟩ := Int.eq_ofNat_of_zero_le (by omega : 0 ≤ -i)
    have hi : (i : ℚ) = -((m : ℚ) * 2 ^ (0 : ℤ)) := by
      have : i = -(m : ℤ) := by omega
      rw [this]; push_cast; simp
    rw [hi]
    apply roundQ_neg_exact
    · omega
    · have : (m : ℤ) < 2 ^ 53 := by omega
      exact_mod_cast this
    · norm_num [binary64, FloatFormat.qmin]
    · have : (m : ℚ) < 2 ^ 53 := by
        have : (m : ℤ) < 2 ^ 53 := by omega
        exact_mod_cast this
      norm_num [binary64]
      linarith
  · subst h
    simp [roundQ]
  · obtain ⟨m, hm⟩ := Int.eq_ofNat_of_zero_le (by omega : 0 ≤ i)
    have hi : (i : ℚ) = (m : ℚ) * 2 ^ (0 : ℤ) := by
      rw [hm]; push_cast; simp
    rw [hi]
    apply roundQ_exact
    · omega
    · have : (m : ℤ) < 2 ^ 53 := by omega
      exact_mod_cast this
    · norm_num [binary64, FloatFormat.qmin]
    · have : (m : ℚ) < 2 ^ 53 := by
        have : (m : ℤ) < 2 ^ 53 := by omega
        exact_mod_cast this
      norm_num [binary64]
      linarith

theorem math_Pow2_exact (i : ℤ) (h1 : -1074 ≤ i) (h2 : i ≤ 1023) :
    math_Pow2 (FP.fin (i : ℚ)) = FP.fin ((2 : ℚ) ^ i) := by
  unfold math_Pow2
  simp only [Int.floor_intCast]
  rw [if_neg (by omega), if_neg (by omega)]
  have := roundQ_exact binary64 1 i (by norm_num) (by norm_num [binary64])
    (by simp only [binary64, FloatFormat.qmin]; omega)
    (by
      simp only [binary64, Nat.cast_one, one_mul]
      exact zpow_lt_zpow_right₀ (by norm_num) (by omega))
  simpa using this

theorem roundNearestEven_half_even {n : ℤ} (hn : n % 2 = 0) :
    roundNearestEven ((n : ℚ) + 1 / 2) = n := by
  have hf : ⌊(n : ℚ) + 1 / 2⌋ = n := by
    rw [Int.floor_eq_iff]
    constructor <;> linarith
  unfold roundNearestEven
  simp only [hf, add_sub_cancel_left, lt_self_iff_false, if_false, hn, if_true]

theorem roundQ_eval_tie_even (fmt : FloatFormat) {q : ℚ} (E qe n : ℤ)
    (hE1 : (2 : ℚ) ^ E ≤ q) (hE2 : q < 2 ^ (E + 1))
    (hqe : qe = max (E - fmt.prec + 1) fmt.qmin)
    (hq : q = ((n : ℚ) + 1 / 2) * 2 ^ qe) (hn : n % 2 = 0) :
    roundQ fmt q = packPos fmt false ((n : ℚ) * 2 ^ qe) := by
  have hpos : 0 < q := lt_of_lt_of_le (by positivity) hE1
  have hp : (0 : ℚ) < 2 ^ qe := by positivity
  have hr : roundNearestEven (q / 2 ^ qe) = n := by
    rw [hq, mul_div_assoc, div_self (ne_of_gt hp), mul_one]
    exact roundNearestEven_half_even hn
  unfold roundQ
  rw [if_neg (ne_of_gt hpos), if_pos hpos]
  unfold roundPos
  simp only [intLog_eq hE1 hE2, ← hqe, hr]


/-! ## Exact resolutions -/

theorem fdiv_exact (a b : ℚ) (m : ℕ) (e : ℤ) (ha : a ≠ 0) (hb : b ≠ 0)
    (h : a / b = (m : ℚ) * 2 ^ e) (hm : 0 < m) (hm' : m < 2 ^ 53)
    (he : -1074 ≤ e) (he' : e ≤ 971) :
    fdiv binary64 (FP.fin a) (FP.fin b) = FP.fin (a / b) := by
  have hlt : (m : ℚ) * 2 ^ e < 2 ^ (binary64.emax + 1) := by
    have h1 : (m : ℚ) < 2 ^ (53 : ℤ) := by exact_mod_cast hm'
    have h2 : (2 : ℚ) ^ e ≤ 2 ^ (971 : ℤ) := zpow_le_zpow_right₀ (by norm_num) he'
    calc (m : ℚ) * 2 ^ e < 2 ^ (53 : ℤ) * 2 ^ e := mul_lt_mul_of_pos_right h1 (by positivity)
      _ ≤ 2 ^ (53 : ℤ) * 2 ^ (971 : ℤ) := mul_le_mul_of_nonneg_left h2 (by positivity)
      _ = 2 ^ (binary64.emax + 1) := by norm_num [binary64]
  have hr := roundQ_exact binary64 m e hm (by simpa [binary64] using hm')
    (by simp only [binary64, FloatFormat.qmin]; omega) hlt
  simp [fdiv, FP.isNaN, FP.isInf, FP.isZero, FP.val, ha, hb, h, hr]

theorem scaleFactorQ_div (e : ℤ) :
    scaleFactorQ / 2 ^ e = ((5378777689099027 : ℕ) : ℚ) * 2 ^ (-35 - e) := by
  unfold scaleFactorQ
  rw [sub_eq_add_neg, zpow_add₀ (by norm_num : (2 : ℚ) ≠ 0), zpow_neg, zpow_neg]
  norm_num
  field_simp

theorem lodEntry_resolution (i : ℤ) (h1 : -1006 ≤ i) (h2 : i ≤ 1023) :
    (lodEntry i).Resolution = FP.fin (scaleFactorQ / 2 ^ i) := by
  unfold lodEntry
  simp only
  rw [scaleFactor_eq, float64OfInt_exact i (by omega) (by omega),
    math_Pow2_exact i (by omega) (by omega)]
  exact fdiv_exact _ _ 5378777689099027 (-35 - i) (by norm_num [scaleFactorQ])
    (by positivity) (scaleFactorQ_div i) (by norm_num) (by norm_num) (by omega) (by omega)

theorem resolution_half (i : ℤ) (h1 : -1006 ≤ i) (h2 : i + 1 ≤ 1039) :
    fdiv binary64 (FP.fin (scaleFactorQ / 2 ^ i)) (FP.fin 2) =
      FP.fin (scaleFactorQ / 2 ^ (i + 1)) := by
  have hq : scaleFactorQ / 2 ^ i / 2 = scaleFactorQ / 2 ^ (i + 1) := by
    rw [zpow_add₀ (by norm_num : (2 : ℚ) ≠ 0)]
    field_simp
  have := fdiv_exact (scaleFactorQ / 2 ^ i) 2 5378777689099027 (-35 - (i + 1))
    (by unfold scaleFactorQ; positivity) (by norm_num)
    (by rw [hq]; exact scaleFactorQ_div (i + 1)) (by norm_num) (by norm_num) (by omega) (by omega)
  rw [this, hq]

theorem resolution_lt (i : ℤ) :
    flt (FP.fin (scaleFactorQ / 2 ^ (i + 1))) (FP.fin (scaleFactorQ / 2 ^ i)) = true := by
  have hpos : (0 : ℚ) < scaleFactorQ := by unfold scaleFactorQ; positivity
  have h2 : (2 : ℚ) ^ i < 2 ^ (i + 1) := zpow_lt_zpow_right₀ (by norm_num) (by omega)
  simp only [flt, FP.val, decide_eq_true_eq]
  exact div_lt_div_of_pos_left hpos (by positivity) h2

/-! ## The constants of the scale and of the tile origin -/

theorem const3937_eq : roundQ binary64 (3937 / 100) = FP.fin (5540834916549263 / 2 ^ 47) := by
  rw [roundQ_eval_pos binary64 5 (-47) 5540834916549263 (by norm_num) (by norm_num)
    (by norm_num [binary64, FloatFormat.qmin]) (by norm_num) (by norm_num)]
  norm_num [packPos, binary64]

theorem float64OfInt_dpi : float64OfInt dpi = FP.fin 96 := by
  rw [dpi, float64OfInt_exact 96 (by norm_num) (by norm_num)]
  norm_num

theorem scaleConst_eq :
    fmul binary64 (float64OfInt dpi) (roundQ binary64 (3937 / 100)) =
      FP.fin (4155626187411947 / 2 ^ 40) := by
  rw [float64OfInt_dpi, const3937_eq]
  have h := roundQ_eval_tie_even binary64 (q := 96 * (5540834916549263 / 2 ^ 47)) 11 (-41)
    8311252374823894 (by norm_num) (by norm_num)
    (by norm_num [binary64, FloatFormat.qmin]) (by norm_num) (by norm_num)
  have hz : ¬ ((96 : ℚ) = 0 ∨ (5540834916549263 : ℚ) / 2 ^ 47 = 0) := by norm_num
  simp only [fmul, FP.isNaN, FP.isInf, FP.isZero, FP.val, Bool.or_self, Bool.false_eq_true,
    if_false, Bool.and_false, Bool.false_and, Bool.or_eq_true, decide_eq_true_eq, hz, h]
  norm_num [packPos, binary64]

theorem scale_zero_eq :
    fmul binary64 (FP.fin (4155626187411947 / 2 ^ 40)) (FP.fin scaleFactorQ) =
      FP.fin (2481591534607367 / 4194304) := by
  have h := roundQ_eval_pos binary64 (q := 4155626187411947 / 2 ^ 40 * scaleFactorQ) 29 (-23)
    4963183069214734 (by norm_num [scaleFactorQ]) (by norm_num [scaleFactorQ])
    (by norm_num [binary64, FloatFormat.qmin]) (by norm_num [scaleFactorQ])
    (by norm_num [scaleFactorQ])
  have hz : ¬ ((4155626187411947 : ℚ) / 2 ^ 40 = 0 ∨ scaleFactorQ = 0) := by
    norm_num [scaleFactorQ]
  simp only [fmul, FP.isNaN, FP.isInf, FP.isZero, FP.val, Bool.or_self, Bool.false_eq_true,
    if_false, Bool.and_false, Bool.false_and, Bool.or_eq_true, decide_eq_true_eq, hz, h]
  norm_num [packPos, binary64]

theorem origin_y_eq : roundQ binary32 (20037508342787 / 1000000) = FP.fin 20037508 := by
  rw [roundQ_eval_pos binary32 24 1 10018754 (by norm_num) (by norm_num)
    (by norm_num [binary32, FloatFormat.qmin]) (by norm_num) (by norm_num)]
  norm_num [packPos, binary32]

theorem origin_x_eq : roundQ binary32 (-20037508342787 / 1000000) = FP.fin (-20037508) := by
  rw [show (-20037508342787 : ℚ) / 1000000 = -(20037508342787 / 1000000) by norm_num,
    roundQ_eval_neg binary32 24 1 10018754 (by norm_num) (by norm_num)
    (by norm_num [binary32, FloatFormat.qmin]) (by norm_num) (by norm_num)]
  norm_num [packPos, binary32]

theorem roundQ_zero (fmt : FloatFormat) : roundQ fmt 0 = FP.fin 0 := by
  simp [roundQ]

/-! ## The zoom loop and the handlers -/

theorem wrapInt_of_range {x : ℤ} (h1 : minInt ≤ x) (h2 : x ≤ maxInt) : wrapInt x = x := by
  unfold wrapInt
  unfold minInt at h1
  unfold maxInt at h2
  rw [Int.emod_eq_of_lt (by omega) (by omega)]
  ring

theorem wrapInt_le_maxInt (x : ℤ) : wrapInt x ≤ maxInt := by
  unfold wrapInt maxInt
  have := Int.emod_lt_of_pos (x + 2 ^ 63) (by norm_num : (0 : ℤ) < 2 ^ 64)
  omega

theorem lodList_nil {a b : ℤ} (h : b < a) : lodList a b = [] := by
  unfold lodList
  have : (b + 1 - a).toNat = 0 := by omega
  rw [this]; rfl

theorem lodList_cons {a b : ℤ} (h : a ≤ b) : lodList a b = lodEntry a :: lodList (a + 1) b := by
  unfold lodList
  obtain ⟨n, hn⟩ : ∃ n : ℕ, (b + 1 - a).toNat = n + 1 := ⟨(b - a).toNat, by omega⟩
  have hn' : (b + 1 - (a + 1)).toNat = n := by omega
  rw [hn, hn', List.range_succ_eq_map, List.map_cons, List.map_map]
  simp only [Nat.cast_zero, add_zero, List.cons.injEq, true_and]
  apply List.map_congr_left
  intro k _
  simp only [Function.comp, Nat.succ_eq_add_one, Nat.cast_add, Nat.cast_one]
  congr 1
  ring

theorem lodList_length (a b : ℤ) : (lodList a b).length = (b + 1 - a).toNat := by
  simp [lodList]

theorem lodList_get? (a b : ℤ) (k : ℕ) (hk : k < (b + 1 - a).toNat) :
    (lodList a b).get? k = some (lodEntry (a + k)) := by
  simp [lodList, List.getElem?_map, List.getElem?_range hk]

theorem lodsLoop_eq (maxZoom : ℤ) (hmax : maxZoom < maxInt) :
    ∀ (n fuel : ℕ) (i : ℤ) (acc : List ArcGISLOD), minInt ≤ i →
      (maxZoom + 1 - i).toNat = n → n < fuel →
      lodsLoop maxZoom fuel i acc = some (acc ++ lodList i maxZoom) := by
  intro n
  induction n with
  | zero =>
    intro fuel i acc _ hn hfuel
    obtain ⟨f, rfl⟩ : ∃ f, fuel = f + 1 := ⟨fuel - 1, by omega⟩
    have hi : ¬ i ≤ maxZoom := by omega
    rw [lodsLoop, if_neg hi, lodList_nil (by omega), List.append_nil]
  | succ n ih =>
    intro fuel i acc hmin hn hfuel
    obtain ⟨f, rfl⟩ : ∃ f, fuel = f + 1 := ⟨fuel - 1, by omega⟩
    have hi : i ≤ maxZoom := by omega
    have hw : wrapInt (i + 1) = i + 1 := wrapInt_of_range (by omega) (by omega)
    rw [lodsLoop, if_pos hi, hw, ih f (i + 1) _ (by omega) (by omega) (by omega),
      lodList_cons hi, List.append_assoc]
    rfl

theorem lodsLoop_maxInt_none :
    ∀ (fuel : ℕ) (i : ℤ) (acc : List ArcGISLOD), i ≤ maxInt →
      lodsLoop maxInt fuel i acc = none := by
  intro fuel
  induction fuel with
  | zero => intro i acc _; rfl
  | succ f ih =>
    intro i acc hi
    rw [lodsLoop, if_pos hi]
    exact ih _ _ (wrapInt_le_maxInt _)

theorem boundsExtent_ok (metadata : String → GoValue) (b0 b1 b2 b3 : FP) (rest : List FP)
    (h : metadata "bounds" = GoValue.float32s (b0 :: b1 :: b2 :: b3 :: rest)) :
    boundsExtent metadata =
      Except.ok { Xmin := b0, Ymin := b1, Xmax := b2, Ymax := b3,
                  SpatialReference := WebMercatorSR } := by
  simp [boundsExtent, h, assertFloat32s, index]

theorem GetArcGISService_ok (caseTable : Char → Char) (fuel : ℕ) (id : String)
    (tilesets : String → Tileset) (a b : ℤ) (b0 b1 b2 b3 : FP) (rest : List FP)
    (hminz : (tilesets id).metadata "minzoom" = GoValue.int a)
    (hmaxz : (tilesets id).metadata "maxzoom" = GoValue.int b)
    (hbounds : (tilesets id).metadata "bounds" = GoValue.float32s (b0 :: b1 :: b2 :: b3 :: rest))
    (ha : minInt ≤ a) (hb : b < maxInt) (hfuel : (b + 1 - a).toNat < fuel) :
    GetArcGISService caseTable fuel (Except.ok id) tilesets =
      some (Outcome.json 200 (serviceDocument caseTable id (tilesets id) (lodList a b)
        { Xmin := b0, Ymin := b1, Xmax := b2, Ymax := b3, SpatialReference := WebMercatorSR })) := by
  have hloop := lodsLoop_eq b hb _ fuel a [] ha rfl hfuel
  simp only [GetArcGISService, hminz, hmaxz, assertInt, hloop, List.nil_append,
    boundsExtent_ok _ b0 b1 b2 b3 rest hbounds]

theorem GetArcGISServiceLayers_ok (id : String) (tilesets : String → Tileset)
    (b0 b1 b2 b3 : FP) (rest : List FP)
    (hbounds : (tilesets id).metadata "bounds" =
      GoValue.float32s (b0 :: b1 :: b2 :: b3 :: rest)) :
    GetArcGISServiceLayers (Except.ok id) tilesets =
      Outcome.json 200
        { layers := [rootLayer (tilesets id).metadata
            { Xmin := b0, Ymin := b1, Xmax := b2, Ymax := b3,
              SpatialReference := WebMercatorSR }] } := by
  simp only [GetArcGISServiceLayers, boundsExtent_ok _ b0 b1 b2 b3 rest hbounds]

theorem mem_lodList {a b : ℤ} {e : ArcGISLOD} (h : e ∈ lodList a b) :
    ∃ i : ℤ, a ≤ i ∧ i ≤ b ∧ e = lodEntry i := by
  unfold lodList at h
  rw [List.mem_map] at h
  obtain ⟨k, hk, rfl⟩ := h
  rw [List.mem_range] at hk
  exact ⟨a + k, by omega, by omega, rfl⟩

theorem lodList_get?_some {a b : ℤ} {k : ℕ} {e : ArcGISLOD}
    (h : (lodList a b).get? k = some e) : e = lodEntry (a + k) ∧ a + k ≤ b := by
  have hk : k < (lodList a b).length := by
    by_contra hc
    rw [List.get?_eq_none.2 (by omega)] at h
    exact Option.noConfusion h
  rw [lodList_length] at hk
  rw [lodList_get? a b k hk] at h
  exact ⟨(Option.some.inj h).symm, by omega⟩

theorem lodList_levels (a b : ℤ) :
    (lodList a b).map (fun e => e.Level) =
      (List.range (b + 1 - a).toNat).map (fun (k : ℕ) => a + (k : ℤ)) := by
  unfold lodList
  rw [List.map_map]
  rfl

theorem lodList_pairwise (a b : ℤ) :
    (lodList a b).Pairwise (fun e f => e.Level < f.Level) := by
  unfold lodList
  rw [List.pairwise_map]
  refine List.Pairwise.imp ?_ (List.pairwise_lt_range _)
  intro x y hxy
  show a + (x : ℤ) < a + (y : ℤ)
  omega

theorem lodEntry_resolution_overflow (i : ℤ) (h1 : 1024 ≤ i) (h2 : i < 2 ^ 53) :
    (lodEntry i).Resolution = FP.fin 0 := by
  unfold lodEntry
  simp only
  rw [scaleFactor_eq, float64OfInt_exact i (by omega) h2]
  unfold math_Pow2
  simp only [Int.floor_intCast]
  rw [if_pos h1]
  have hp : (0 : ℚ) ≤ scaleFactorQ := by unfold scaleFactorQ; positivity
  simp [fdiv, FP.isNaN, FP.isInf, FP.isZero, FP.zero, FP.signBit, hp]

theorem toString_of_not_str {v : GoValue} (h : ∀ s, v ≠ GoValue.str s) : toString v = "" := by
  cases v with
  | str s => exact absurd rfl (h s)
  | _ => rfl

theorem GetArcGISService_bounds_panic (caseTable : Char → Char) (fuel : ℕ) (id : String)
    (tilesets : String → Tileset) (a b : ℤ) (p : Panic)
    (hminz : (tilesets id).metadata "minzoom" = GoValue.int a)
    (hmaxz : (tilesets id).metadata "maxzoom" = GoValue.int b)
    (hbounds : boundsExtent (tilesets id).metadata = Except.error p)
    (ha : minInt ≤ a) (hb : b < maxInt) (hfuel : (b + 1 - a).toNat < fuel) :
    GetArcGISService caseTable fuel (Except.ok id) tilesets = some (Outcome.panic p) := by
  have hloop := lodsLoop_eq b hb _ fuel a [] ha rfl hfuel
  simp only [GetArcGISService, hminz, hmaxz, assertInt, hloop, hbounds]

/-! ## C1: levels of the LOD sequence -/

/-- C1 (amended). For Go `int` zoom bounds with `minInt ≤ minZoom` and
`maxZoom < maxInt`, the zoom loop finishes within `maxZoom - minZoom + 2`
iterations (one when `minZoom > maxZoom`) and the sequence it builds has the
levels `minZoom, minZoom + 1, ..., maxZoom` in that order: `maxZoom - minZoom + 1`
entries when `minZoom ≤ maxZoom`, the entry at position `k` with level
`minZoom + k`, strictly ascending, and the empty sequence when
`minZoom > maxZoom`; with a usable `bounds` the handler then responds with
status 200 and a document whose `tileInfo.lods` is this sequence. -/
theorem C1_lod_levels (caseTable : Char → Char) (id : String) (tilesets : String → Tileset)
    (minZoom maxZoom : ℤ) (fuel : ℕ)
    (hmin : (tilesets id).metadata "minzoom" = GoValue.int minZoom)
    (hmax : (tilesets id).metadata "maxzoom" = GoValue.int maxZoom)
    (hlo : minInt ≤ minZoom) (hhi : maxZoom < maxInt)
    (hfuel : (maxZoom + 1 - minZoom).toNat < fuel) :
    ∃ lods : List ArcGISLOD,
      lodsLoop maxZoom fuel minZoom [] = some lods ∧
      lods.map (fun e => e.Level) =
        (List.range (maxZoom + 1 - minZoom).toNat).map (fun (k : ℕ) => minZoom + (k : ℤ)) ∧
      (minZoom ≤ maxZoom → (lods.length : ℤ) = maxZoom - minZoom + 1) ∧
      (∀ (k : ℕ) (e : ArcGISLOD), lods.get? k = some e → e.Level = minZoom + (k : ℤ)) ∧
      lods.Pairwise (fun e f => e.Level < f.Level) ∧
      (maxZoom < minZoom → lods = []) ∧
      (∀ (b0 b1 b2 b3 : FP) (rest : List FP),
        (tilesets id).metadata "bounds" = GoValue.float32s (b0 :: b1 :: b2 :: b3 :: rest) →
        ∃ doc : ServiceDoc,
          GetArcGISService caseTable fuel (Except.ok id) tilesets = some (Outcome.json 200 doc) ∧
          doc.tileInfo.lods = lods) := by
  refine ⟨lodList minZoom maxZoom, ?_, lodList_levels _ _, ?_, ?_, lodList_pairwise _ _,
    fun h => lodList_nil h, ?_⟩
  · simpa using lodsLoop_eq maxZoom hhi _ fuel minZoom [] hlo rfl hfuel
  · intro h
    rw [lodList_length]
    omega
  · intro k e h
    rw [(lodList_get?_some h).1]
    rfl
  · intro b0 b1 b2 b3 rest hb
    exact ⟨_, GetArcGISService_ok caseTable fuel id tilesets minZoom maxZoom b0 b1 b2 b3 rest
      hmin hmax hb hlo hhi hfuel, rfl⟩

/-- C1 witness: zoom range 0..2 with four iterations of fuel. -/
theorem C1_lod_levels_witness :
    ∃ lods : List ArcGISLOD,
      lodsLoop 2 4 0 [] = some lods ∧
      lods.map (fun e => e.Level) = [0, 1, 2] ∧
      (∃ doc : ServiceDoc,
        GetArcGISService (fun c => c) 4 (Except.ok "t")
          (fun _ => sampleTileset "png" (GoValue.int 0) (GoValue.int 2)
            (GoValue.float32s [FP.fin 1, FP.fin 2, FP.fin 3, FP.fin 4]) GoValue.nil) =
          some (Outcome.json 200 doc) ∧
        doc.tileInfo.lods = lods) := by
  obtain ⟨lods, h1, h2, _, _, _, _, h7⟩ :=
    C1_lod_levels (fun c => c) "t"
      (fun _ => sampleTileset "png" (GoValue.int 0) (GoValue.int 2)
        (GoValue.float32s [FP.fin 1, FP.fin 2, FP.fin 3, FP.fin 4]) GoValue.nil)
      0 2 4 rfl rfl (by decide) (by decide) (by decide)
  refine ⟨lods, h1, ?_, h7 _ _ _ _ [] rfl⟩
  rw [h2]
  decide

/-- C1 counterexample: with `minzoom = maxzoom = 9223372036854775807` the claim
asks for a one-entry sequence, but `i++` wraps around to the smallest `int`,
`i <= maxZoom` stays true and the handler never gets past the loop, whatever
the fuel. -/
theorem C1_counterexample :
    ¬ ∃ fuel : ℕ,
      GetArcGISService (fun c => c) fuel (Except.ok "t")
        (fun _ => sampleTileset "png" (GoValue.int 9223372036854775807)
          (GoValue.int 9223372036854775807)
          (GoValue.float32s [FP.fin 1, FP.fin 2, FP.fin 3, FP.fin 4]) GoValue.nil) ≠ none := by
  rintro ⟨fuel, h⟩
  apply h
  have hloop := lodsLoop_maxInt_none fuel 9223372036854775807 [] (by decide)
  have hm : maxInt = 9223372036854775807 := by decide
  rw [hm] at hloop
  simp [GetArcGISService, sampleTileset, assertInt, hloop]

/-! ## C2: required metadata -/

/-- C2 (code at the failing inputs). A resolved tileset whose metadata lacks
`bounds`, holds a three-element `[]float32` or a `[]float64` under `bounds`,
lacks `minzoom`, or holds a string under `maxzoom` makes `GetArcGISService`
panic (failed type assertion or index out of range): no error value is
returned. -/
theorem C2_missing_metadata_panics :
    GetArcGISService (fun c => c) 3 (Except.ok "t")
        (fun _ => sampleTileset "png" (GoValue.int 0) (GoValue.int 1) GoValue.nil GoValue.nil) =
      some (Outcome.panic (Panic.typeAssertion "bounds")) ∧
    GetArcGISService (fun c => c) 3 (Except.ok "t")
        (fun _ => sampleTileset "png" (GoValue.int 0) (GoValue.int 1)
          (GoValue.float32s [FP.fin 1, FP.fin 2, FP.fin 3]) GoValue.nil) =
      some (Outcome.panic (Panic.indexOutOfRange 3 3)) ∧
    GetArcGISService (fun c => c) 3 (Except.ok "t")
        (fun _ => sampleTileset "png" (GoValue.int 0) (GoValue.int 1)
          (GoValue.float64s [FP.fin 1, FP.fin 2, FP.fin 3, FP.fin 4]) GoValue.nil) =
      some (Outcome.panic (Panic.typeAssertion "bounds")) ∧
    GetArcGISService (fun c => c) 3 (Except.ok "t")
        (fun _ => sampleTileset "png" GoValue.nil (GoValue.int 1)
          (GoValue.float32s [FP.fin 1, FP.fin 2, FP.fin 3, FP.fin 4]) GoValue.nil) =
      some (Outcome.panic (Panic.typeAssertion "minzoom")) ∧
    GetArcGISService (fun c => c) 3 (Except.ok "t")
        (fun _ => sampleTileset "png" (GoValue.int 0) (GoValue.str "1")
          (GoValue.float32s [FP.fin 1, FP.fin 2, FP.fin 3, FP.fin 4]) GoValue.nil) =
      some (Outcome.panic (Panic.typeAssertion "maxzoom")) := by
  refine ⟨?_, ?_, ?_, ?_, ?_⟩
  · exact GetArcGISService_bounds_panic _ 3 "t" _ 0 1 _ rfl rfl rfl (by decide) (by decide)
      (by decide)
  · exact GetArcGISService_bounds_panic _ 3 "t" _ 0 1 _ rfl rfl rfl (by decide) (by decide)
      (by decide)
  · exact GetArcGISService_bounds_panic _ 3 "t" _ 0 1 _ rfl rfl rfl (by decide) (by decide)
      (by decide)
  · rfl
  · rfl

/-! ## C3: resolutions -/

/-- C3 (amended). For a zoom range within `-1006 ≤ minZoom` and
`maxZoom ≤ 1023`, where `float64` neither overflows nor underflows, the
handler responds with status 200 and every LOD entry of the document has
`resolution = scaleFactor / math.Pow(2, float64(level))`, which is exactly
`c / 2 ^ level` for the `float64` constant `c` nearest to `156543.033928`;
the entry for level 0 has resolution `c`; of two consecutive entries the later
resolution is the earlier one divided by 2, and is strictly smaller. -/
theorem C3_resolution (caseTable : Char → Char) (id : String) (tilesets : String → Tileset)
    (minZoom maxZoom : ℤ) (fuel : ℕ) (b0 b1 b2 b3 : FP) (rest : List FP)
    (hmin : (tilesets id).metadata "minzoom" = GoValue.int minZoom)
    (hmax : (tilesets id).metadata "maxzoom" = GoValue.int maxZoom)
    (hbounds : (tilesets id).metadata "bounds" =
      GoValue.float32s (b0 :: b1 :: b2 :: b3 :: rest))
    (hlo : -1006 ≤ minZoom) (hhi : maxZoom ≤ 1023)
    (hfuel : (maxZoom + 1 - minZoom).toNat < fuel) :
    ∃ doc : ServiceDoc,
      GetArcGISService caseTable fuel (Except.ok id) tilesets = some (Outcome.json 200 doc) ∧
      scaleFactor = FP.fin scaleFactorQ ∧
      |scaleFactorQ - 156543033928 / 1000000| ≤ 1 / 2 ^ 36 ∧
      (∀ e ∈ doc.tileInfo.lods,
        e.Resolution = fdiv binary64 scaleFactor (math_Pow2 (float64OfInt e.Level)) ∧
        e.Resolution = FP.fin (scaleFactorQ / 2 ^ e.Level) ∧
        (e.Level = 0 → e.Resolution = scaleFactor)) ∧
      (∀ (k : ℕ) (e f : ArcGISLOD),
        doc.tileInfo.lods.get? k = some e → doc.tileInfo.lods.get? (k + 1) = some f →
        f.Resolution = fdiv binary64 e.Resolution (FP.fin 2) ∧
        flt f.Resolution e.Resolution = true) := by
  have hmaxInt : maxZoom < maxInt := by unfold maxInt; omega
  have hminInt : minInt ≤ minZoom := by unfold minInt; omega
  refine ⟨_, GetArcGISService_ok caseTable fuel id tilesets minZoom maxZoom b0 b1 b2 b3 rest
    hmin hmax hbounds hminInt hmaxInt hfuel, scaleFactor_eq, ?_, ?_, ?_⟩
  · rw [abs_le]
    constructor <;> norm_num [scaleFactorQ]
  · intro e he
    obtain ⟨i, hi1, hi2, rfl⟩ := mem_lodList he
    have hr := lodEntry_resolution i (by omega) (by omega)
    refine ⟨rfl, hr, ?_⟩
    intro h0
    have hi0 : i = 0 := h0
    rw [hr, hi0, scaleFactor_eq]
    simp
  · intro k e f he hf
    obtain ⟨rfl, hk1⟩ := lodList_get?_some he
    obtain ⟨rfl, hk2⟩ := lodList_get?_some hf
    have hcast : minZoom + ((k + 1 : ℕ) : ℤ) = minZoom + (k : ℤ) + 1 := by push_cast; ring
    rw [hcast] at hk2 ⊢
    rw [lodEntry_resolution (minZoom + k) (by omega) (by omega),
      lodEntry_resolution (minZoom + k + 1) (by omega) (by omega),
      resolution_half (minZoom + k) (by omega) (by omega)]
    exact ⟨rfl, resolution_lt _⟩

/-- C3 witness: zoom range 0..2. -/
theorem C3_resolution_witness :
    ∃ doc : ServiceDoc,
      GetArcGISService (fun c => c) 4 (Except.ok "t")
        (fun _ => sampleTileset "png" (GoValue.int 0) (GoValue.int 2)
          (GoValue.float32s [FP.fin 1, FP.fin 2, FP.fin 3, FP.fin 4]) GoValue.nil) =
        some (Outcome.json 200 doc) ∧
      (∀ e ∈ doc.tileInfo.lods, e.Resolution = FP.fin (scaleFactorQ / 2 ^ e.Level)) ∧
      (∀ (k : ℕ) (e f : ArcGISLOD),
        doc.tileInfo.lods.get? k = some e → doc.tileInfo.lods.get? (k + 1) = some f →
        f.Resolution = fdiv binary64 e.Resolution (FP.fin 2) ∧
        flt f.Resolution e.Resolution = true) := by
  obtain ⟨doc, h1, _, _, h4, h5⟩ :=
    C3_resolution (fun c => c) "t"
      (fun _ => sampleTileset "png" (GoValue.int 0) (GoValue.int 2)
        (GoValue.float32s [FP.fin 1, FP.fin 2, FP.fin 3, FP.fin 4]) GoValue.nil)
      0 2 4 (FP.fin 1) (FP.fin 2) (FP.fin 3) (FP.fin 4) [] rfl rfl rfl
      (by decide) (by decide) (by decide)
  exact ⟨doc, h1, fun e he => (h4 e he).2.1, h5⟩

/-- C3 counterexample: for the zoom range 1023..1025 the document has three
entries; `math.Pow(2, 1024)` is `+Inf`, so the resolution at level 1024 is `0`
and not the (positive) resolution of level 1023 divided by 2, and the
resolution at level 1025 is `0` again, not smaller than the one before. -/
theorem C3_counterexample :
    ∃ (doc : ServiceDoc) (e f g : ArcGISLOD),
      GetArcGISService (fun c => c) 4 (Except.ok "t")
        (fun _ => sampleTileset "png" (GoValue.int 1023) (GoValue.int 1025)
          (GoValue.float32s [FP.fin 1, FP.fin 2, FP.fin 3, FP.fin 4]) GoValue.nil) =
        some (Outcome.json 200 doc) ∧
      doc.tileInfo.lods = [e, f, g] ∧
      e.Level = 1023 ∧ f.Level = 1024 ∧ g.Level = 1025 ∧
      f.Resolution = FP.fin 0 ∧
      fdiv binary64 e.Resolution (FP.fin 2) = FP.fin (scaleFactorQ / 2 ^ (1024 : ℤ)) ∧
      f.Resolution ≠ fdiv binary64 e.Resolution (FP.fin 2) ∧
      g.Resolution = FP.fin 0 ∧
      flt g.Resolution f.Resolution = false := by
  have hdoc := GetArcGISService_ok (fun c => c) 4 "t"
    (fun _ => sampleTileset "png" (GoValue.int 1023) (GoValue.int 1025)
      (GoValue.float32s [FP.fin 1, FP.fin 2, FP.fin 3, FP.fin 4]) GoValue.nil)
    1023 1025 (FP.fin 1) (FP.fin 2) (FP.fin 3) (FP.fin 4) [] rfl rfl rfl
    (by decide) (by decide) (by decide)
  have hl : lodList 1023 1025 = [lodEntry 1023, lodEntry 1024, lodEntry 1025] := by
    rw [lodList_cons (by decide), lodList_cons (by decide), lodList_cons (by decide),
      lodList_nil (by decide)]
    rfl
  have he := lodEntry_resolution 1023 (by decide) (by decide)
  have hf := lodEntry_resolution_overflow 1024 (by decide) (by decide)
  have hg := lodEntry_resolution_overflow 1025 (by decide) (by decide)
  have hhalf := resolution_half 1023 (by decide) (by decide)
  have hne : FP.fin 0 ≠ FP.fin (scaleFactorQ / 2 ^ (1024 : ℤ)) := by
    intro h
    have h0 : (0 : ℚ) = scaleFactorQ / 2 ^ (1024 : ℤ) := FP.fin.inj h
    have hpos : (0 : ℚ) < scaleFactorQ / 2 ^ (1024 : ℤ) := by unfold scaleFactorQ; positivity
    linarith
  refine ⟨_, lodEntry 1023, lodEntry 1024, lodEntry 1025, hdoc, ?_, rfl, rfl, rfl, hf, ?_, ?_,
    hg, ?_⟩
  · simp only [serviceDocument, hl]
  · rw [he]; exact hhalf
  · rw [hf, he, hhalf]; exact hne
  · rw [hg, hf]; simp [flt, FP.val]

/-! ## C4 and C5: scales and extents -/

theorem lodEntry_scale (i : ℤ) :
    (lodEntry i).Scale =
      fmul binary64 (fmul binary64 (float64OfInt 96) (roundQ binary64 (3937 / 100)))
        (lodEntry i).Resolution := rfl

theorem lodEntry_zero_scale : (lodEntry 0).Scale = FP.fin (2481591534607367 / 4194304) := by
  have hr := lodEntry_resolution 0 (by decide) (by decide)
  rw [zpow_zero, div_one] at hr
  have hs := scaleConst_eq
  rw [dpi] at hs
  rw [lodEntry_scale, hr, hs, scale_zero_eq]

/-- C4. Whenever the zoom range and the bounds are usable, the handler responds
with status 200 and every LOD entry of the document has
`scale = float64(96) * 39.37 * resolution` of that same entry, the two
`float64` products taken left to right and nothing else applied; the entry for
level 0 has scale `2481591534607367 / 2 ^ 22`, which is `591657527.59` to
within one hundredth. -/
theorem C4_scale (caseTable : Char → Char) (id : String) (tilesets : String → Tileset)
    (minZoom maxZoom : ℤ) (fuel : ℕ) (b0 b1 b2 b3 : FP) (rest : List FP)
    (hmin : (tilesets id).metadata "minzoom" = GoValue.int minZoom)
    (hmax : (tilesets id).metadata "maxzoom" = GoValue.int maxZoom)
    (hbounds : (tilesets id).metadata "bounds" =
      GoValue.float32s (b0 :: b1 :: b2 :: b3 :: rest))
    (hlo : minInt ≤ minZoom) (hhi : maxZoom < maxInt)
    (hfuel : (maxZoom + 1 - minZoom).toNat < fuel) :
    ∃ doc : ServiceDoc,
      GetArcGISService caseTable fuel (Except.ok id) tilesets = some (Outcome.json 200 doc) ∧
      (∀ e ∈ doc.tileInfo.lods,
        e.Scale =
          fmul binary64 (fmul binary64 (float64OfInt 96) (roundQ binary64 (3937 / 100)))
            e.Resolution) ∧
      (∀ e ∈ doc.tileInfo.lods, e.Level = 0 →
        e.Scale = FP.fin (2481591534607367 / 4194304)) ∧
      |(2481591534607367 / 4194304 : ℚ) - 59165752759 / 100| < 1 / 100 := by
  refine ⟨_, GetArcGISService_ok caseTable fuel id tilesets minZoom maxZoom b0 b1 b2 b3 rest
    hmin hmax hbounds hlo hhi hfuel, ?_, ?_, ?_⟩
  · intro e he
    obtain ⟨i, _, _, rfl⟩ := mem_lodList he
    exact lodEntry_scale i
  · intro e he h0
    obtain ⟨i, _, _, rfl⟩ := mem_lodList he
    have hi0 : i = 0 := h0
    rw [hi0]
    exact lodEntry_zero_scale
  · rw [abs_lt]
    constructor <;> norm_num

/-- C4 witness: zoom range 0..2. -/
theorem C4_scale_witness :
    ∃ doc : ServiceDoc,
      GetArcGISService (fun c => c) 4 (Except.ok "t")
        (fun _ => sampleTileset "png" (GoValue.int 0) (GoValue.int 2)
          (GoValue.float32s [FP.fin 1, FP.fin 2, FP.fin 3, FP.fin 4]) GoValue.nil) =
        some (Outcome.json 200 doc) ∧
      (∀ e ∈ doc.tileInfo.lods,
        e.Scale =
          fmul binary64 (fmul binary64 (float64OfInt 96) (roundQ binary64 (3937 / 100)))
            e.Resolution) ∧
      (∀ e ∈ doc.tileInfo.lods, e.Level = 0 →
        e.Scale = FP.fin (2481591534607367 / 4194304)) := by
  obtain ⟨doc, h1, h2, h3, _⟩ :=
    C4_scale (fun c => c) "t"
      (fun _ => sampleTileset "png" (GoValue.int 0) (GoValue.int 2)
        (GoValue.float32s [FP.fin 1, FP.fin 2, FP.fin 3, FP.fin 4]) GoValue.nil)
      0 2 4 (FP.fin 1) (FP.fin 2) (FP.fin 3) (FP.fin 4) [] rfl rfl rfl
      (by decide) (by decide) (by decide)
  exact ⟨doc, h1, h2, h3⟩

/-- C5. For a four-element `[]float32` bounds `[b0, b1, b2, b3]` the layer-list
handler responds with status 200 and one layer whose extent is
`{xmin: b0, ymin: b1, xmax: b2, ymax: b3, wkid 3857}`, the values copied
unchanged; and with a usable zoom range the service-root handler responds with
status 200 and a document whose `initialExtent` and `fullExtent` are both that
same extent. -/
theorem C5_extent (caseTable : Char → Char) (id : String) (tilesets : String → Tileset)
    (b0 b1 b2 b3 : FP)
    (hbounds : (tilesets id).metadata "bounds" = GoValue.float32s [b0, b1, b2, b3]) :
    (∃ (doc : LayersDoc) (layer : ArcGISLayer),
      GetArcGISServiceLayers (Except.ok id) tilesets = Outcome.json 200 doc ∧
      doc.layers = [layer] ∧
      layer.Extent =
        { Xmin := b0, Ymin := b1, Xmax := b2, Ymax := b3, SpatialReference := { Wkid := 3857 } }) ∧
    (∀ (minZoom maxZoom : ℤ) (fuel : ℕ),
      (tilesets id).metadata "minzoom" = GoValue.int minZoom →
      (tilesets id).metadata "maxzoom" = GoValue.int maxZoom →
      minInt ≤ minZoom → maxZoom < maxInt → (maxZoom + 1 - minZoom).toNat < fuel →
      ∃ doc : ServiceDoc,
        GetArcGISService caseTable fuel (Except.ok id) tilesets = some (Outcome.json 200 doc) ∧
        doc.initialExtent =
          { Xmin := b0, Ymin := b1, Xmax := b2, Ymax := b3,
            SpatialReference := { Wkid := 3857 } } ∧
        doc.fullExtent =
          { Xmin := b0, Ymin := b1, Xmax := b2, Ymax := b3,
            SpatialReference := { Wkid := 3857 } }) := by
  constructor
  · simp only [GetArcGISServiceLayers, boundsExtent_ok _ b0 b1 b2 b3 [] hbounds]
    exact ⟨_, _, rfl, rfl, rfl⟩
  · intro minZoom maxZoom fuel hmin hmax hlo hhi hfuel
    exact ⟨_, GetArcGISService_ok caseTable fuel id tilesets minZoom maxZoom b0 b1 b2 b3 []
      hmin hmax hbounds hlo hhi hfuel, rfl, rfl⟩

/-- C5 witness: bounds `[1, 2, 3, 4]`. -/
theorem C5_extent_witness :
    (∃ (doc : LayersDoc) (layer : ArcGISLayer),
      GetArcGISServiceLayers (Except.ok "t")
        (fun _ => sampleTileset "png" (GoValue.int 0) (GoValue.int 2)
          (GoValue.float32s [FP.fin 1, FP.fin 2, FP.fin 3, FP.fin 4]) GoValue.nil) =
        Outcome.json 200 doc ∧
      doc.layers = [layer] ∧
      layer.Extent =
        { Xmin := FP.fin 1, Ymin := FP.fin 2, Xmax := FP.fin 3, Ymax := FP.fin 4,
          SpatialReference := { Wkid := 3857 } }) ∧
    (∃ doc : ServiceDoc,
      GetArcGISService (fun c => c) 4 (Except.ok "t")
        (fun _ => sampleTileset "png" (GoValue.int 0) (GoValue.int 2)
          (GoValue.float32s [FP.fin 1, FP.fin 2, FP.fin 3, FP.fin 4]) GoValue.nil) =
        some (Outcome.json 200 doc) ∧
      doc.initialExtent =
        { Xmin := FP.fin 1, Ymin := FP.fin 2, Xmax := FP.fin 3, Ymax := FP.fin 4,
          SpatialReference := { Wkid := 3857 } } ∧
      doc.fullExtent =
        { Xmin := FP.fin 1, Ymin := FP.fin 2, Xmax := FP.fin 3, Ymax := FP.fin 4,
          SpatialReference := { Wkid := 3857 } }) := by
  have h := C5_extent (fun c => c) "t"
    (fun _ => sampleTileset "png" (GoValue.int 0) (GoValue.int 2)
      (GoValue.float32s [FP.fin 1, FP.fin 2, FP.fin 3, FP.fin 4]) GoValue.nil)
    (FP.fin 1) (FP.fin 2) (FP.fin 3) (FP.fin 4) rfl
  exact ⟨h.1, h.2 0 2 4 rfl rfl (by decide) (by decide) (by decide)⟩

/-! ## C6: the single layer entry -/

/-- C6 (amended). For every resolved tileset the legend handler responds with
status 200 and a document with exactly one layer entry, whose `layerId` is 0.
When `bounds` is a `[]float32` whose first four elements are finite numbers,
the layer-list handler responds with status 200 and a document with exactly
one layer entry, whose `id` is 0 and whose extent holds those four finite
values; and every document the layer-list handler responds with has status
200 and exactly one layer entry, whose `id` is 0. -/
theorem C6_single_layer (id : String) (tilesets : String → Tileset) :
    (∃ (doc : LegendDoc) (layer : LegendLayer),
      GetArcGISServiceLegend (Except.ok id) tilesets = Outcome.json 200 doc ∧
      doc.layers = [layer] ∧ layer.layerId = 0) ∧
    (∀ (b0 b1 b2 b3 : FP) (rest : List FP),
      (tilesets id).metadata "bounds" = GoValue.float32s (b0 :: b1 :: b2 :: b3 :: rest) →
      b0.isFinite = true → b1.isFinite = true → b2.isFinite = true → b3.isFinite = true →
      ∃ (doc : LayersDoc) (layer : ArcGISLayer),
        GetArcGISServiceLayers (Except.ok id) tilesets = Outcome.json 200 doc ∧
        doc.layers = [layer] ∧ layer.Id = 0 ∧
        layer.Extent.Xmin.isFinite = true ∧ layer.Extent.Ymin.isFinite = true ∧
        layer.Extent.Xmax.isFinite = true ∧ layer.Extent.Ymax.isFinite = true ∧
        layer.MinScale.isFinite = true ∧ layer.MaxScale.isFinite = true) ∧
    (∀ (status : ℕ) (doc : LayersDoc),
      GetArcGISServiceLayers (Except.ok id) tilesets = Outcome.json status doc →
      status = 200 ∧ ∃ layer : ArcGISLayer, doc.layers = [layer] ∧ layer.Id = 0) := by
  refine ⟨⟨_, _, rfl, rfl, rfl⟩, ?_, ?_⟩
  · intro b0 b1 b2 b3 rest hb h0 h1 h2 h3
    exact ⟨_, _, GetArcGISServiceLayers_ok id tilesets b0 b1 b2 b3 rest hb, rfl, rfl,
      h0, h1, h2, h3, rfl, rfl⟩
  · intro status doc h
    unfold GetArcGISServiceLayers at h
    cases hb : boundsExtent (tilesets id).metadata with
    | error p => simp [hb] at h
    | ok ext =>
      simp only [hb, Outcome.json.injEq] at h
      obtain ⟨rfl, rfl⟩ := h
      exact ⟨rfl, _, rfl, rfl⟩

/-- C6 witness: a tileset with bounds `[1, 2, 3, 4]`. -/
theorem C6_single_layer_witness :
    (∃ (doc : LegendDoc) (layer : LegendLayer),
      GetArcGISServiceLegend (Except.ok "t")
        (fun _ => sampleTileset "png" (GoValue.int 0) (GoValue.int 2)
          (GoValue.float32s [FP.fin 1, FP.fin 2, FP.fin 3, FP.fin 4]) GoValue.nil) =
        Outcome.json 200 doc ∧
      doc.layers = [layer] ∧ layer.layerId = 0) ∧
    (∃ (doc : LayersDoc) (layer : ArcGISLayer),
      GetArcGISServiceLayers (Except.ok "t")
        (fun _ => sampleTileset "png" (GoValue.int 0) (GoValue.int 2)
          (GoValue.float32s [FP.fin 1, FP.fin 2, FP.fin 3, FP.fin 4]) GoValue.nil) =
        Outcome.json 200 doc ∧
      doc.layers = [layer] ∧ layer.Id = 0 ∧
      layer.Extent.Xmin = FP.fin 1 ∧ layer.Extent.Ymax = FP.fin 4) := by
  obtain ⟨h1, h2, _⟩ := C6_single_layer "t"
    (fun _ => sampleTileset "png" (GoValue.int 0) (GoValue.int 2)
      (GoValue.float32s [FP.fin 1, FP.fin 2, FP.fin 3, FP.fin 4]) GoValue.nil)
  obtain ⟨doc, layer, hdoc, hl, hid, _⟩ :=
    h2 (FP.fin 1) (FP.fin 2) (FP.fin 3) (FP.fin 4) [] rfl rfl rfl rfl rfl
  have hdoc' := GetArcGISServiceLayers_ok "t"
    (fun _ => sampleTileset "png" (GoValue.int 0) (GoValue.int 2)
      (GoValue.float32s [FP.fin 1, FP.fin 2, FP.fin 3, FP.fin 4]) GoValue.nil)
    (FP.fin 1) (FP.fin 2) (FP.fin 3) (FP.fin 4) [] rfl
  rw [hdoc'] at hdoc
  have hd := Outcome.json.inj hdoc
  have hdd : doc = _ := hd.2.symm
  subst hdd
  have hll : layer = _ := (List.cons.inj hl).1.symm
  subst hll
  exact ⟨h1, _, _, hdoc', rfl, rfl, rfl, rfl⟩

/-- C6 counterexample: for a resolved tileset without `bounds` the layer-list
handler panics on the type assertion and responds with no document. -/
theorem C6_counterexample :
    GetArcGISServiceLayers (Except.ok "t")
        (fun _ => sampleTileset "png" (GoValue.int 0) (GoValue.int 2) GoValue.nil
          (GoValue.str "world")) =
      Outcome.panic (Panic.typeAssertion "bounds") ∧
    ¬ ∃ (status : ℕ) (doc : LayersDoc),
      GetArcGISServiceLayers (Except.ok "t")
        (fun _ => sampleTileset "png" (GoValue.int 0) (GoValue.int 2) GoValue.nil
          (GoValue.str "world")) =
        Outcome.json status doc := by
  have h : GetArcGISServiceLayers (Except.ok "t")
      (fun _ => sampleTileset "png" (GoValue.int 0) (GoValue.int 2) GoValue.nil
        (GoValue.str "world")) = Outcome.panic (Panic.typeAssertion "bounds") := rfl
  refine ⟨h, ?_⟩
  rintro ⟨status, doc, hd⟩
  rw [h] at hd
  exact Outcome.noConfusion hd

/-! ## C7 to C10: strings, origin, image format and fixed fields -/

/-- C7. With a usable zoom range and bounds, all three handlers respond with
status 200, and an optional metadata key that is absent or holds a non-string
value gives the empty string in every output field fed from it: `name` in
`name`, `mapName`, `documentInfo.Title` and the layer stub of the service root,
in `name` of the layer list and in `layerName` of the legend; `description` in
`description`, `serviceDescription` and the layer's `description`;
`attribution` in `copyrightText`, `documentInfo.Author` and the layer's
`copyrightText`; `tags` in `documentInfo.Keywords`; `credits` in
`documentInfo.Credits`. -/
theorem C7_optional_strings (caseTable : Char → Char) (id : String)
    (tilesets : String → Tileset) (minZoom maxZoom : ℤ) (fuel : ℕ) (b0 b1 b2 b3 : FP)
    (rest : List FP)
    (hmin : (tilesets id).metadata "minzoom" = GoValue.int minZoom)
    (hmax : (tilesets id).metadata "maxzoom" = GoValue.int maxZoom)
    (hbounds : (tilesets id).metadata "bounds" =
      GoValue.float32s (b0 :: b1 :: b2 :: b3 :: rest))
    (hlo : minInt ≤ minZoom) (hhi : maxZoom < maxInt)
    (hfuel : (maxZoom + 1 - minZoom).toNat < fuel) :
    ∃ (doc : ServiceDoc) (stub : ArcGISLayerStub) (ldoc : LayersDoc) (layer : ArcGISLayer)
      (gdoc : LegendDoc) (entry : LegendLayer),
      GetArcGISService caseTable fuel (Except.ok id) tilesets = some (Outcome.json 200 doc) ∧
      doc.layers = [stub] ∧
      GetArcGISServiceLayers (Except.ok id) tilesets = Outcome.json 200 ldoc ∧
      ldoc.layers = [layer] ∧
      GetArcGISServiceLegend (Except.ok id) tilesets = Outcome.json 200 gdoc ∧
      gdoc.layers = [entry] ∧
      ((∀ s, (tilesets id).metadata "name" ≠ GoValue.str s) →
        doc.name = "" ∧ doc.mapName = "" ∧ doc.documentInfo.Title = "" ∧ stub.Name = "" ∧
        layer.Name = "" ∧ entry.layerName = "") ∧
      ((∀ s, (tilesets id).metadata "description" ≠ GoValue.str s) →
        doc.description = "" ∧ doc.serviceDescription = "" ∧ layer.Description = "") ∧
      ((∀ s, (tilesets id).metadata "attribution" ≠ GoValue.str s) →
        doc.copyrightText = "" ∧ doc.documentInfo.Author = "" ∧ layer.CopyrightText = "") ∧
      ((∀ s, (tilesets id).metadata "tags" ≠ GoValue.str s) →
        doc.documentInfo.Keywords = "") ∧
      ((∀ s, (tilesets id).metadata "credits" ≠ GoValue.str s) →
        doc.documentInfo.Credits = "") := by
  have hsvc := GetArcGISService_ok caseTable fuel id tilesets minZoom maxZoom b0 b1 b2 b3 rest
    hmin hmax hbounds hlo hhi hfuel
  have hlay := GetArcGISServiceLayers_ok id tilesets b0 b1 b2 b3 rest hbounds
  refine ⟨_, _, _, _, _, _, hsvc, rfl, hlay, rfl, rfl, rfl, ?_, ?_, ?_, ?_, ?_⟩
  · intro h
    have := toString_of_not_str h
    simp only [serviceDocument, rootLayer, legendLayer, this, and_self]
  · intro h
    have := toString_of_not_str h
    simp only [serviceDocument, rootLayer, legendLayer, this, and_self]
  · intro h
    have := toString_of_not_str h
    simp only [serviceDocument, rootLayer, legendLayer, this, and_self]
  · intro h
    have := toString_of_not_str h
    simp only [serviceDocument, this]
  · intro h
    have := toString_of_not_str h
    simp only [serviceDocument, this]

/-- C7 witness: a tileset whose `name` is the integer 7 and whose other optional
keys are absent. -/
theorem C7_optional_strings_witness :
    ∃ (doc : ServiceDoc) (ldoc : LayersDoc) (layer : ArcGISLayer) (gdoc : LegendDoc)
      (entry : LegendLayer),
      GetArcGISService (fun c => c) 4 (Except.ok "t")
        (fun _ => sampleTileset "png" (GoValue.int 0) (GoValue.int 2)
          (GoValue.float32s [FP.fin 1, FP.fin 2, FP.fin 3, FP.fin 4]) (GoValue.int 7)) =
        some (Outcome.json 200 doc) ∧
      GetArcGISServiceLayers (Except.ok "t")
        (fun _ => sampleTileset "png" (GoValue.int 0) (GoValue.int 2)
          (GoValue.float32s [FP.fin 1, FP.fin 2, FP.fin 3, FP.fin 4]) (GoValue.int 7)) =
        Outcome.json 200 ldoc ∧
      ldoc.layers = [layer] ∧
      GetArcGISServiceLegend (Except.ok "t")
        (fun _ => sampleTileset "png" (GoValue.int 0) (GoValue.int 2)
          (GoValue.float32s [FP.fin 1, FP.fin 2, FP.fin 3, FP.fin 4]) (GoValue.int 7)) =
        Outcome.json 200 gdoc ∧
      gdoc.layers = [entry] ∧
      doc.name = "" ∧ doc.mapName = "" ∧ doc.description = "" ∧ doc.copyrightText = "" ∧
      doc.documentInfo.Keywords = "" ∧ doc.documentInfo.Credits = "" ∧
      layer.Name = "" ∧ layer.Description = "" ∧ layer.CopyrightText = "" ∧
      entry.layerName = "" := by
  obtain ⟨doc, stub, ldoc, layer, gdoc, entry, h1, _, h3, h4, h5, h6, hn, hd, ha, ht, hc⟩ :=
    C7_optional_strings (fun c => c) "t"
      (fun _ => sampleTileset "png" (GoValue.int 0) (GoValue.int 2)
        (GoValue.float32s [FP.fin 1, FP.fin 2, FP.fin 3, FP.fin 4]) (GoValue.int 7))
      0 2 4 (FP.fin 1) (FP.fin 2) (FP.fin 3) (FP.fin 4) [] rfl rfl rfl
      (by decide) (by decide) (by decide)
  have hn' := hn (fun s h => GoValue.noConfusion h)
  have hd' := hd (fun s h => GoValue.noConfusion h)
  have ha' := ha (fun s h => GoValue.noConfusion h)
  exact ⟨doc, ldoc, layer, gdoc, entry, h1, h3, h4, h5, h6, hn'.1, hn'.2.1, hd'.1, ha'.1,
    ht (fun s h => GoValue.noConfusion h), hc (fun s h => GoValue.noConfusion h),
    hn'.2.2.2.2.1, hd'.2.2, ha'.2.2, hn'.2.2.2.2.2⟩

/-- C8 (code at a failing input). For a tileset with zoom range 0..0 and bounds
`[1, 2, 3, 4]` the handler responds with status 200; `tileInfo` has rows 256,
cols 256, dpi 96 and wkid 3857, but its origin, stored as `float32`, is
`x = -20037508`, `y = 20037508`: the fractional part `.342787` of the
constants in the source is lost. -/
theorem C8_origin_is_rounded :
    ∃ doc : ServiceDoc,
      GetArcGISService (fun c => c) 2 (Except.ok "t")
        (fun _ => sampleTileset "png" (GoValue.int 0) (GoValue.int 0)
          (GoValue.float32s [FP.fin 1, FP.fin 2, FP.fin 3, FP.fin 4]) (GoValue.str "world")) =
        some (Outcome.json 200 doc) ∧
      doc.tileInfo.rows = 256 ∧ doc.tileInfo.cols = 256 ∧ doc.tileInfo.dpi = 96 ∧
      doc.tileInfo.spatialReference = { Wkid := 3857 } ∧
      doc.tileInfo.origin.x = FP.fin (-20037508) ∧
      doc.tileInfo.origin.y = FP.fin 20037508 ∧
      doc.tileInfo.origin.x ≠ FP.fin (-20037508342787 / 1000000) ∧
      doc.tileInfo.origin.y ≠ FP.fin (20037508342787 / 1000000) := by
  refine ⟨_, GetArcGISService_ok (fun c => c) 2 "t" _ 0 0 (FP.fin 1) (FP.fin 2) (FP.fin 3)
    (FP.fin 4) [] rfl rfl rfl (by decide) (by decide) (by decide), rfl, rfl, rfl, rfl,
    origin_x_eq, origin_y_eq, ?_, ?_⟩
  · show roundQ binary32 (-20037508342787 / 1000000) ≠ _
    rw [origin_x_eq]
    intro h
    have := FP.fin.inj h
    norm_num at this
  · show roundQ binary32 (20037508342787 / 1000000) ≠ _
    rw [origin_y_eq]
    intro h
    have := FP.fin.inj h
    norm_num at this

/-- C9. With a usable zoom range and bounds the handler responds with status 200
and `supportedImageFormatTypes` is `strings.ToUpper` of the tileset's format
string, nothing else done to it; `strings.ToUpper` maps `"png"` to `"PNG"`. -/
theorem C9_image_format (caseTable : Char → Char) (id : String)
    (tilesets : String → Tileset) (minZoom maxZoom : ℤ) (fuel : ℕ) (b0 b1 b2 b3 : FP)
    (rest : List FP)
    (hmin : (tilesets id).metadata "minzoom" = GoValue.int minZoom)
    (hmax : (tilesets id).metadata "maxzoom" = GoValue.int maxZoom)
    (hbounds : (tilesets id).metadata "bounds" =
      GoValue.float32s (b0 :: b1 :: b2 :: b3 :: rest))
    (hlo : minInt ≤ minZoom) (hhi : maxZoom < maxInt)
    (hfuel : (maxZoom + 1 - minZoom).toNat < fuel) :
    (∃ doc : ServiceDoc,
      GetArcGISService caseTable fuel (Except.ok id) tilesets = some (Outcome.json 200 doc) ∧
      doc.supportedImageFormatTypes = strings_ToUpper caseTable (tilesets id).format) ∧
    strings_ToUpper caseTable "png" = "PNG" := by
  refine ⟨⟨_, GetArcGISService_ok caseTable fuel id tilesets minZoom maxZoom b0 b1 b2 b3 rest
    hmin hmax hbounds hlo hhi hfuel, rfl⟩, ?_⟩
  simp [strings_ToUpper, unicode_ToUpper]

/-- C9 witness: the stored format `"png"` gives `"PNG"`. -/
theorem C9_image_format_witness :
    ∃ doc : ServiceDoc,
      GetArcGISService (fun c => c) 4 (Except.ok "t")
        (fun _ => sampleTileset "png" (GoValue.int 0) (GoValue.int 2)
          (GoValue.float32s [FP.fin 1, FP.fin 2, FP.fin 3, FP.fin 4]) GoValue.nil) =
        some (Outcome.json 200 doc) ∧
      doc.supportedImageFormatTypes = "PNG" := by
  obtain ⟨⟨doc, h1, h2⟩, h3⟩ :=
    C9_image_format (fun c => c) "t"
      (fun _ => sampleTileset "png" (GoValue.int 0) (GoValue.int 2)
        (GoValue.float32s [FP.fin 1, FP.fin 2, FP.fin 3, FP.fin 4]) GoValue.nil)
      0 2 4 (FP.fin 1) (FP.fin 2) (FP.fin 3) (FP.fin 4) [] rfl rfl rfl
      (by decide) (by decide) (by decide)
  exact ⟨doc, h1, h2.trans h3⟩

/-- C10. With a usable zoom range and bounds the handler responds with status
200 and the document has `currentVersion` "10.4", `capabilities`
"Map,TilesOnly", `singleFusedMapCache` true, `units` "esriMeters", no tables,
`exportTilesAllowed` false, `maxExportTilesCount` 0, `resampling` false, and
exactly one layer stub: id 0, the name of the document (the string under the
metadata key `name`), parent -1, visible by default, no sub-layer ids and
scales 0 and 0. -/
theorem C10_fixed_fields (caseTable : Char → Char) (id : String)
    (tilesets : String → Tileset) (minZoom maxZoom : ℤ) (fuel : ℕ) (b0 b1 b2 b3 : FP)
    (rest : List FP)
    (hmin : (tilesets id).metadata "minzoom" = GoValue.int minZoom)
    (hmax : (tilesets id).metadata "maxzoom" = GoValue.int maxZoom)
    (hbounds : (tilesets id).metadata "bounds" =
      GoValue.float32s (b0 :: b1 :: b2 :: b3 :: rest))
    (hlo : minInt ≤ minZoom) (hhi : maxZoom < maxInt)
    (hfuel : (maxZoom + 1 - minZoom).toNat < fuel) :
    ∃ doc : ServiceDoc,
      GetArcGISService caseTable fuel (Except.ok id) tilesets = some (Outcome.json 200 doc) ∧
      doc.currentVersion = "10.4" ∧ doc.capabilities = "Map,TilesOnly" ∧
      doc.singleFusedMapCache = true ∧ doc.units = "esriMeters" ∧ doc.tables = [] ∧
      doc.exportTilesAllowed = false ∧ doc.maxExportTilesCount = 0 ∧
      doc.resampling = false ∧
      doc.layers =
        [{ Id := 0, Name := doc.name, ParentLayerId := -1, DefaultVisibility := true,
           SubLayerIds := [], MinScale := FP.fin 0, MaxScale := FP.fin 0 }] ∧
      doc.name = toString ((tilesets id).metadata "name") ∧
      (∀ s, (tilesets id).metadata "name" = GoValue.str s → doc.name = s) := by
  refine ⟨_, GetArcGISService_ok caseTable fuel id tilesets minZoom maxZoom b0 b1 b2 b3 rest
    hmin hmax hbounds hlo hhi hfuel, rfl, rfl, rfl, rfl, rfl, rfl, rfl, rfl, ?_, rfl, ?_⟩
  · simp only [serviceDocument, roundQ_zero]
  · intro s hs
    simp only [serviceDocument, hs, toString]

/-- C10 witness: a tileset named "world". -/
theorem C10_fixed_fields_witness :
    ∃ doc : ServiceDoc,
      GetArcGISService (fun c => c) 4 (Except.ok "t")
        (fun _ => sampleTileset "png" (GoValue.int 0) (GoValue.int 2)
          (GoValue.float32s [FP.fin 1, FP.fin 2, FP.fin 3, FP.fin 4]) (GoValue.str "world")) =
        some (Outcome.json 200 doc) ∧
      doc.currentVersion = "10.4" ∧ doc.capabilities = "Map,TilesOnly" ∧
      doc.singleFusedMapCache = true ∧ doc.units = "esriMeters" ∧ doc.tables = [] ∧
      doc.exportTilesAllowed = false ∧ doc.maxExportTilesCount = 0 ∧
      doc.resampling = false ∧
      doc.layers =
        [{ Id := 0, Name := "world", ParentLayerId := -1, DefaultVisibility := true,
           SubLayerIds := [], MinScale := FP.fin 0, MaxScale := FP.fin 0 }] := by
  obtain ⟨doc, h1, h2, h3, h4, h5, h6, h7, h8, h9, h10, _, h12⟩ :=
    C10_fixed_fields (fun c => c) "t"
      (fun _ => sampleTileset "png" (GoValue.int 0) (GoValue.int 2)
        (GoValue.float32s [FP.fin 1, FP.fin 2, FP.fin 3, FP.fin 4]) (GoValue.str "world"))
      0 2 4 (FP.fin 1) (FP.fin 2) (FP.fin 3) (FP.fin 4) [] rfl rfl rfl
      (by decide) (by decide) (by decide)
  have hname : doc.name = "world" := h12 "world" rfl
  rw [hname] at h10
  exact ⟨doc, h1, h2, h3, h4, h5, h6, h7, h8, h9, h10⟩

end ArcGIS
